import Mathlib

/-!
Shallow embedding of the curve-trait module of `truck-geotrait`
(`src/truck-geotrait/src/traits/curve.rs`) and proofs about it.

Modeling conventions:
* `f64` values are modeled as `ℚ` (exact field arithmetic, total order).
* `usize` is `ℕ`; Rust `usize` subtraction panics on underflow, so it is
  modeled as `Option ℕ` via `usizeSub` (`none` = panic).
* A Rust panic is modeled as `Option.none`.
* Trait-generic code is modeled by passing the trait methods as explicit
  function arguments.
* The default body of `ParameterTransform::parameter_transformed` calls
  itself recursively; it is modeled with an explicit fuel parameter, with
  `none` meaning the call has not returned within the given recursion depth.
-/

/-- Rust `usize` subtraction `a - b`: panics (`none`) when `b > a`. -/
def usizeSub (a b : ℕ) : Option ℕ :=
  if b ≤ a then some (a - b) else none

/-- Error for concat curves: `ConcatError<Point>` with its two variants. -/
inductive ConcatError (P : Type) where
  | DisconnectedParameters (a b : ℚ)
  | DisconnectedPoints (p q : P)
  deriving DecidableEq

/-- `ConcatError::point_map`: maps the carried points, preserving the variant. -/
def ConcatError.point_map {P U : Type} (f : P → U) : ConcatError P → ConcatError U
  | .DisconnectedParameters a b => .DisconnectedParameters a b
  | .DisconnectedPoints p q => .DisconnectedPoints (f p) (f q)

/-- Default `Concat::concat`: `self.try_concat(rhs).unwrap_or_else(|err| panic!(..))`.
The trait method `try_concat` is passed explicitly; `none` models the panic. -/
def Concat.concat {C R O P : Type} (try_concat : C → R → Except (ConcatError P) O)
    (self : C) (rhs : R) : Option O :=
  match try_concat self rhs with
  | .ok o => some o
  | .error _ => none

/-- `CurveCollector<C>`: `Singleton` (empty) or `Curve c` (accumulated curve). -/
inductive CurveCollector (C : Type) where
  | Singleton
  | Curve (c : C)
  deriving DecidableEq

/-- `CurveCollector::try_concat`. Rust mutates `self` in place and returns
`Result<&mut Self, ConcatError>`; the model returns the new collector state
paired with the returned error, if any. `tc` is the concrete curve type's
`Concat::try_concat` method and `into` its `Into<C>` conversion. -/
def CurveCollector.try_concat {C R P : Type}
    (tc : C → R → Except (ConcatError P) C) (into : R → C) :
    CurveCollector C → R → CurveCollector C × Option (ConcatError P)
  | .Singleton, curve => (.Curve (into curve), none)
  | .Curve curve0, curve =>
    match tc curve0 curve with
    | .ok c => (.Curve c, none)
    | .error e => (.Curve curve0, some e)

/-- `CurveCollector::concat`: like `try_concat` but panics (`none`) on error. -/
def CurveCollector.concat {C R P : Type}
    (tc : C → R → Except (ConcatError P) C) (into : R → C)
    (self : CurveCollector C) (curve : R) : Option (CurveCollector C) :=
  match CurveCollector.try_concat tc into self curve with
  | (s, none) => some s
  | (_, some _) => none

/-- `CurveCollector::is_singleton`. -/
def CurveCollector.is_singleton {C : Type} : CurveCollector C → Bool
  | .Singleton => true
  | .Curve _ => false

/-- `impl From<CurveCollector<C>> for Option<C>`. -/
def CurveCollector.toOption {C : Type} : CurveCollector C → Option C
  | .Singleton => none
  | .Curve curve => some curve

/-- Default `ParameterTransform::parameter_transformed`: clones the receiver,
calls `parameter_transformed` (this very method) on the clone, discards the
result and returns the clone. The recursive call never terminates for a type
using the default; the model adds a fuel parameter bounding the recursion
depth, `none` meaning the call has not returned within that depth. -/
def parameter_transformed_default {C : Type} : ℕ → C → ℚ → ℚ → Option C
  | 0, _, _, _ => none
  | fuel + 1, self, scalar, mov =>
    let curve := self
    match parameter_transformed_default fuel curve scalar mov with
    | none => none
    | some _ => some curve

/-- Default `ParameterTransform::parameter_normalization`: derives
`a = 1.0 / (t1 - t0)` and `b = -t0 * a` from the current range and applies
`parameter_transform`. The trait methods `parameter_range` (`pr`) and
`parameter_transform` (`pt`) are passed explicitly. -/
def parameter_normalization {C : Type} (pr : C → ℚ × ℚ) (pt : C → ℚ → ℚ → C)
    (self : C) : C :=
  let t0 := (pr self).1
  let t1 := (pr self).2
  let a := 1 / (t1 - t0)
  let b := -t0 * a
  pt self a b

/-- Scale drawn by `exec_parameter_transform_random_test`:
`sign as f64 * rand::random::<f64>() + 0.5`, where `sign` is the nonzero
signum of a random `i32` (so `sign ∈ {-1, 1}`) and the random draw `r` is
uniform in `[0, 1)`. -/
def drawn_scale (sign : ℤ) (r : ℚ) : ℚ := (sign : ℚ) * r + 1 / 2

/-- Translation drawn by `exec_parameter_transform_random_test`:
`rand::random::<f64>() * 2.0` with the draw `r` uniform in `[0, 1)`. -/
def drawn_translation (r : ℚ) : ℚ := r * 2

/-- `impl ParametricCurve for (usize, usize)`: `subs` returns the first
component when `t < 0.5`, the second otherwise. -/
def StepCurve.subs (self : ℕ × ℕ) (t : ℚ) : ℕ :=
  if t < 1 / 2 then self.1 else self.2

/-- `impl ParametricCurve for (usize, usize)`: `der` is `self.1 - self.0`
in `usize` arithmetic, ignoring the parameter. -/
def StepCurve.der (self : ℕ × ℕ) (_t : ℚ) : Option ℕ := usizeSub self.2 self.1

/-- `impl ParametricCurve for (usize, usize)`: `der2` is `self.1 - self.0`
in `usize` arithmetic, ignoring the parameter. -/
def StepCurve.der2 (self : ℕ × ℕ) (_t : ℚ) : Option ℕ := usizeSub self.2 self.1

/-- `impl ParametricCurve for (usize, usize)`: `parameter_range` is `(0.0, 1.0)`. -/
def StepCurve.parameter_range (_self : ℕ × ℕ) : ℚ × ℚ := (0, 1)

/-- Default `ParametricCurve::front` instantiated for the step curve:
`subs` at the first component of `parameter_range`. -/
def StepCurve.front (self : ℕ × ℕ) : ℕ :=
  StepCurve.subs self (StepCurve.parameter_range self).1

/-- Default `ParametricCurve::back` instantiated for the step curve:
`subs` at the second component of `parameter_range`. -/
def StepCurve.back (self : ℕ × ℕ) : ℕ :=
  StepCurve.subs self (StepCurve.parameter_range self).2

/-- Helper concrete `try_concat` on `ℕ` used by witnesses: fails on segment `0`,
otherwise adds the segment to the accumulated value. -/
def tcW : ℕ → ℕ → Except (ConcatError ℕ) ℕ :=
  fun c r => if r = 0 then .error (.DisconnectedParameters 0 0) else .ok (c + r)

/-- Helper concrete curve type for the normalization witness: the state is its
own parameter range. -/
def prW : ℚ × ℚ → ℚ × ℚ := id

/-- Helper `parameter_transform` for the normalization witness: maps the range
`(t0, t1)` to `(t0 * a + b, t1 * a + b)`. -/
def ptW : ℚ × ℚ → ℚ → ℚ → ℚ × ℚ := fun c a b => (c.1 * a + b, c.2 * a + b)

/-- C1: the default `parameter_transformed` never returns a value: for every
recursion depth, every receiver and every `(scalar, move)` pair the call
recurses into itself until the depth is exhausted, so it never produces the
clone with the in-place transform applied that its documentation promises. -/
theorem parameter_transformed_default_diverges {C : Type} :
    ∀ (fuel : ℕ) (c : C) (a b : ℚ),
      parameter_transformed_default fuel c a b = none := by
  intro fuel
  induction fuel with
  | zero => intro c a b; rfl
  | succ n ih =>
    intro c a b
    simp [parameter_transformed_default, ih]

/-- C2 counterexample: `sign = -1` is a legal draw and `r = 1/2` lies in
`[0, 1)`, yet the drawn scale `sign * r + 0.5` equals `0`: it is neither
nonzero nor of magnitude in `(0.5, 1.5)`. -/
theorem drawn_scale_zero :
    ((-1 : ℤ) = -1 ∨ (-1 : ℤ) = 1) ∧ (0 : ℚ) ≤ 1 / 2 ∧ (1 / 2 : ℚ) < 1 ∧
      drawn_scale (-1) (1 / 2) = 0 := by
  refine ⟨Or.inl rfl, by norm_num, by norm_num, ?_⟩
  norm_num [drawn_scale]

/-- C2 (amended): for `sign ∈ {-1, 1}` and `r ∈ [0, 1)`, the drawn scale
`sign * r + 0.5` lies in the open interval `(-0.5, 1.5)` — in `[0.5, 1.5)`
when `sign = 1` and in `(-0.5, 0.5]` when `sign = -1`, so it may be zero —
and the drawn translation `r * 2` lies in `[0, 2)`. -/
theorem drawn_scale_translation_range (sign : ℤ) (r : ℚ)
    (hs : sign = -1 ∨ sign = 1) (h0 : 0 ≤ r) (h1 : r < 1) :
    (-(1 / 2) < drawn_scale sign r ∧ drawn_scale sign r < 3 / 2) ∧
    (sign = 1 → 1 / 2 ≤ drawn_scale sign r ∧ drawn_scale sign r < 3 / 2) ∧
    (sign = -1 → -(1 / 2) < drawn_scale sign r ∧ drawn_scale sign r ≤ 1 / 2) ∧
    (0 ≤ drawn_translation r ∧ drawn_translation r < 2) := by
  have htr : 0 ≤ drawn_translation r ∧ drawn_translation r < 2 := by
    constructor <;> (simp only [drawn_translation]; linarith)
  rcases hs with h | h <;> subst h
  · refine ⟨⟨?_, ?_⟩, ?_, ?_, htr⟩
    · simp only [drawn_scale]; push_cast; linarith
    · simp only [drawn_scale]; push_cast; linarith
    · intro h; exact absurd h (by decide)
    · intro h
      constructor <;> (simp only [drawn_scale]; push_cast; linarith)
  · refine ⟨⟨?_, ?_⟩, ?_, ?_, htr⟩
    · simp only [drawn_scale]; push_cast; linarith
    · simp only [drawn_scale]; push_cast; linarith
    · intro h
      constructor <;> (simp only [drawn_scale]; push_cast; linarith)
    · intro h; exact absurd h (by decide)

/-- C2 witness: the amended bounds instantiated at `sign = 1`, `r = 1/4`. -/
theorem drawn_scale_translation_range_witness :
    (-(1 / 2) < drawn_scale 1 (1 / 4) ∧ drawn_scale 1 (1 / 4) < 3 / 2) ∧
    ((1 : ℤ) = 1 → 1 / 2 ≤ drawn_scale 1 (1 / 4) ∧ drawn_scale 1 (1 / 4) < 3 / 2) ∧
    ((1 : ℤ) = -1 → -(1 / 2) < drawn_scale 1 (1 / 4) ∧ drawn_scale 1 (1 / 4) ≤ 1 / 2) ∧
    (0 ≤ drawn_translation (1 / 4) ∧ drawn_translation (1 / 4) < 2) :=
  drawn_scale_translation_range 1 (1 / 4) (Or.inr rfl) (by norm_num) (by norm_num)

/-- C3: `CurveCollector::try_concat` is a two-state machine: from `Singleton`
it moves to `Curve (into segment)` with no continuity check (for every
underlying `tc`) and returns success; from `Curve c` it follows
`tc c segment` — on success the held curve is replaced, on failure the state
is unchanged and the `ConcatError` is returned. -/
theorem CurveCollector.try_concat_spec {C R P : Type}
    (tc : C → R → Except (ConcatError P) C) (into : R → C) (seg : R) (c : C) :
    CurveCollector.try_concat tc into .Singleton seg = (.Curve (into seg), none) ∧
    (∀ c', tc c seg = .ok c' →
      CurveCollector.try_concat tc into (.Curve c) seg = (.Curve c', none)) ∧
    (∀ e, tc c seg = .error e →
      CurveCollector.try_concat tc into (.Curve c) seg = (.Curve c, some e)) := by
  refine ⟨rfl, ?_, ?_⟩ <;> intro x h <;> simp [CurveCollector.try_concat, h]

/-- C3 witness: the collector machine on the concrete `tcW`, at a success and
at a failure segment. -/
theorem CurveCollector.try_concat_spec_witness :
    (tcW 5 2 = .ok 7 ∧
      CurveCollector.try_concat tcW id (.Curve 5) 2 = (.Curve 7, none)) ∧
    (tcW 5 0 = .error (.DisconnectedParameters 0 0) ∧
      CurveCollector.try_concat tcW id (.Curve 5) 0
        = (.Curve 5, some (.DisconnectedParameters 0 0))) :=
  ⟨⟨rfl, (CurveCollector.try_concat_spec tcW id 2 5).2.1 7 rfl⟩,
   ⟨rfl, (CurveCollector.try_concat_spec tcW id 0 5).2.2 _ rfl⟩⟩

/-- C4: the default `Concat::concat` returns exactly the success value of
`try_concat` and panics (modeled as `none`) exactly when `try_concat` returns
a `ConcatError`; `CurveCollector::concat` does the same relative to the
collector's `try_concat`. -/
theorem concat_panic_spec {C R O P : Type}
    (tc : C → R → Except (ConcatError P) O)
    (tcc : C → R → Except (ConcatError P) C) (into : R → C)
    (c : C) (r : R) (s : CurveCollector C) :
    (∀ o, tc c r = .ok o → Concat.concat tc c r = some o) ∧
    (∀ e, tc c r = .error e → Concat.concat tc c r = none) ∧
    (∀ s', CurveCollector.try_concat tcc into s r = (s', none) →
      CurveCollector.concat tcc into s r = some s') ∧
    (∀ s' e, CurveCollector.try_concat tcc into s r = (s', some e) →
      CurveCollector.concat tcc into s r = none) := by
  refine ⟨?_, ?_, ?_, ?_⟩
  · intro o h; simp [Concat.concat, h]
  · intro e h; simp [Concat.concat, h]
  · intro s' h; simp [CurveCollector.concat, h]
  · intro s' e h; simp [CurveCollector.concat, h]

/-- C4 witness: `concat` on the concrete `tcW` at a success and at a failure
input, for both the trait default and the collector. -/
theorem concat_panic_spec_witness :
    Concat.concat tcW 5 2 = some 7 ∧
    Concat.concat tcW 5 0 = none ∧
    CurveCollector.concat tcW id CurveCollector.Singleton 3 = some (.Curve 3) ∧
    CurveCollector.concat tcW id (.Curve 5) 0 = none :=
  ⟨(concat_panic_spec tcW tcW id 5 2 .Singleton).1 7 rfl,
   (concat_panic_spec tcW tcW id 5 0 .Singleton).2.1 _ rfl,
   (concat_panic_spec tcW tcW id 5 3 .Singleton).2.2.1 _ rfl,
   (concat_panic_spec tcW tcW id 5 0 (.Curve 5)).2.2.2 _ _ rfl⟩

/-- C5: `parameter_normalization` applies `parameter_transform` with scalar
`1 / (t1 - t0)` and move `-t0 / (t1 - t0)`, and — when `parameter_transform`
meets its range contract and `t0 ≠ t1` — the resulting range is `(0, 1)`. -/
theorem parameter_normalization_spec {C : Type} (pr : C → ℚ × ℚ)
    (pt : C → ℚ → ℚ → C) (c : C) (t0 t1 : ℚ)
    (hr : pr c = (t0, t1)) (hne : t0 ≠ t1)
    (hcontract : ∀ a b, pr (pt c a b) = (t0 * a + b, t1 * a + b)) :
    parameter_normalization pr pt c = pt c (1 / (t1 - t0)) (-t0 / (t1 - t0)) ∧
    pr (parameter_normalization pr pt c) = (0, 1) := by
  have hsub : t1 - t0 ≠ 0 := sub_ne_zero.mpr (Ne.symm hne)
  constructor
  · simp only [parameter_normalization, hr]
    ring_nf
  · simp only [parameter_normalization, hr, hcontract, Prod.mk.injEq]
    constructor
    · ring
    · field_simp
      ring

/-- C5 witness: normalizing the concrete range-carrying curve `(2, 5)`. -/
theorem parameter_normalization_spec_witness :
    parameter_normalization prW ptW (2, 5) = ptW (2, 5) (1 / (5 - 2)) (-2 / (5 - 2)) ∧
    prW (parameter_normalization prW ptW (2, 5)) = (0, 1) :=
  parameter_normalization_spec prW ptW (2, 5) 2 5 rfl (by norm_num)
    (fun a b => rfl)

/-- C6: the two-point step curve has parameter range `(0, 1)`, its `front` is
`subs 0` and its `back` is `subs 1`, and `der` and `der2` both compute the
`usize` difference `second - first`, independent of the parameter. -/
theorem step_curve_end_to_end (c : ℕ × ℕ) (t s : ℚ) :
    StepCurve.parameter_range c = (0, 1) ∧
    StepCurve.front c = StepCurve.subs c 0 ∧
    StepCurve.back c = StepCurve.subs c 1 ∧
    StepCurve.der c t = usizeSub c.2 c.1 ∧
    StepCurve.der2 c t = usizeSub c.2 c.1 ∧
    StepCurve.der c t = StepCurve.der c s ∧
    StepCurve.der2 c t = StepCurve.der2 c s ∧
    (c.1 ≤ c.2 → StepCurve.der c t = some (c.2 - c.1)) := by
  refine ⟨rfl, rfl, rfl, rfl, rfl, rfl, rfl, ?_⟩
  intro h
  simp [StepCurve.der, usizeSub, h]

/-- C6 witness: the step curve `(1, 4)` at parameters `1/3` and `7`. -/
theorem step_curve_end_to_end_witness :
    StepCurve.parameter_range (1, 4) = (0, 1) ∧
    StepCurve.der (1, 4) (1 / 3) = StepCurve.der (1, 4) 7 ∧
    StepCurve.der (1, 4) (1 / 3) = some 3 :=
  ⟨(step_curve_end_to_end (1, 4) (1 / 3) 7).1,
   (step_curve_end_to_end (1, 4) (1 / 3) 7).2.2.2.2.2.1,
   (step_curve_end_to_end (1, 4) (1 / 3) 7).2.2.2.2.2.2.2 (by norm_num)⟩

/-- C7: `point_map` preserves the variant: parameters are kept unchanged and
the mapping function is applied to both carried points. -/
theorem ConcatError.point_map_spec {P U : Type} (f : P → U) (a b : ℚ) (p q : P) :
    ConcatError.point_map f (ConcatError.DisconnectedParameters a b)
      = ConcatError.DisconnectedParameters a b ∧
    ConcatError.point_map f (ConcatError.DisconnectedPoints p q)
      = ConcatError.DisconnectedPoints (f p) (f q) :=
  ⟨rfl, rfl⟩

/-- C8: `is_singleton` is true exactly on the `Singleton` state, and the
conversion to `Option` yields `none` exactly on `Singleton` and `some c`
exactly on `Curve c`. -/
theorem CurveCollector.is_singleton_toOption_spec {C : Type}
    (s : CurveCollector C) (c : C) :
    (CurveCollector.is_singleton s = true ↔ s = .Singleton) ∧
    (CurveCollector.toOption s = none ↔ s = .Singleton) ∧
    (CurveCollector.toOption s = some c ↔ s = .Curve c) := by
  cases s <;>
    simp [CurveCollector.is_singleton, CurveCollector.toOption]

/-- C9: the step curve's `der` and `der2` are defined exactly when
`first ≤ second`, and hit the `usize` underflow panic exactly when
`first > second`. -/
theorem step_curve_der_underflow (c : ℕ × ℕ) (t : ℚ) :
    ((∃ v, StepCurve.der c t = some v) ↔ c.1 ≤ c.2) ∧
    ((∃ v, StepCurve.der2 c t = some v) ↔ c.1 ≤ c.2) ∧
    (StepCurve.der c t = none ↔ c.2 < c.1) ∧
    (StepCurve.der2 c t = none ↔ c.2 < c.1) := by
  by_cases h : c.1 ≤ c.2 <;>
    (simp [StepCurve.der, StepCurve.der2, usizeSub, h]; all_goals omega)

/-- C10: the step curve's `subs` returns the first point exactly when
`t < 0.5` and the second point for every `t ≥ 0.5` (also outside `[0, 1]`);
the step is at `0.5` regardless of the pair's values. -/
theorem step_curve_subs_spec (c : ℕ × ℕ) (t : ℚ) :
    (t < 1 / 2 ∧ StepCurve.subs c t = c.1) ∨
    (1 / 2 ≤ t ∧ StepCurve.subs c t = c.2) := by
  by_cases h : t < 1 / 2
  · exact Or.inl ⟨h, by simp only [StepCurve.subs]; rw [if_pos h]⟩
  · exact Or.inr ⟨le_of_not_lt h, by simp only [StepCurve.subs]; rw [if_neg h]⟩
